import Mathlib

/-!
Shallow embedding of the conwayste server (src/src/server.rs) and the
netwaystev2 transport interface, with theorems checking the specification's
claims about session handling, game-slot management and transport queueing.

Modelling conventions:
* `usize`/`u64` become `Nat` (no overflow is relevant at the sizes involved).
* `SocketAddr` is opaque in the server logic (only stored and cloned), so it
  is modelled as `Nat`.
* `rand::thread_rng` / `new_cookie()` is externalized: every operation that
  draws a random cookie (player cookie or game-slot id) takes the drawn
  string as an explicit `fresh` argument.
* `HashMap<String, PlayerID>` is modelled as an association list with
  insert-at-front (later inserts shadow earlier ones, matching
  `HashMap::insert` overwrite semantics for lookup).
* Rust panics (`unimplemented!()`, `panic!()`, `.unwrap()` failure,
  `unreachable!()`) are modelled by the `PanicOr.panic` outcome.
-/

/-- Outcome of a computation that can panic (Rust `panic!`/`unimplemented!`/
failed `unwrap`). -/
inductive PanicOr (α : Type) where
  | ok : α → PanicOr α
  | panic : String → PanicOr α
  deriving DecidableEq, Repr

namespace PanicOr

def map {α β : Type} (f : α → β) : PanicOr α → PanicOr β
  | .ok a => .ok (f a)
  | .panic m => .panic m

end PanicOr

/-- Source `const MAX_GAME_SLOT_NAME: usize = 16;` (server.rs line 33). -/
def MAX_GAME_SLOT_NAME : Nat := 16

/-- Rust `PlayerID(usize)` newtype; modelled directly as `Nat`. -/
abbrev PlayerID := Nat

/-- Display instance `impl fmt::Display for PlayerID` writes `({})`. -/
def PlayerID.display (i : PlayerID) : String :=
  "(" ++ toString i ++ ")"

/-- Source `struct PlayerInGameInfo` with its single field `game_slot_id`. -/
structure PlayerInGameInfo where
  game_slot_id : String
  deriving DecidableEq, Repr

/-- Source `struct Player` (server.rs lines 44-53). -/
structure Player where
  player_id     : PlayerID
  cookie        : String
  addr          : Nat
  player_name   : String
  request_ack   : Option Nat
  next_resp_seq : Nat
  game_info     : Option PlayerInGameInfo
  deriving DecidableEq, Repr

/-- Source `struct GameSlot` (server.rs lines 86-94). The source field `universe`
is renamed `univ` because `universe` is a Lean keyword. -/
structure GameSlot where
  game_slot_id : String
  name         : String
  player_ids   : List PlayerID
  game_running : Bool
  univ         : Nat
  pending_messages : List (PlayerID × String)
  deriving DecidableEq, Repr

/-- Source `struct ServerState` (server.rs lines 96-103); `player_map` is the
cookie-to-player-id hash map, modelled as an association list. -/
structure ServerState where
  tick           : Nat
  ctr            : Nat
  players        : List Player
  player_map     : List (String × PlayerID)
  game_slots     : List GameSlot
  next_player_id : PlayerID
  deriving DecidableEq, Repr

/-- Variants of `RequestAction`, as used by server.rs (defined in the `net`
module, whose variants are fully determined by the server's match arms). -/
inductive RequestAction where
  | Disconnect
  | KeepAlive
  | ListPlayers
  | ChatMessage (msg : String)
  | ListGameSlots
  | NewGameSlot (name : String)
  | JoinGameSlot (name : String)
  | LeaveGameSlot
  | Connect (name : String) (client_version : String)
  | None
  deriving DecidableEq, Repr

/-- Variants of `ResponseCode` used by server.rs. -/
inductive ResponseCode where
  | OK
  | BadRequest (msg : Option String)
  | Unauthorized (msg : Option String)
  | LoggedIn (cookie : String)
  | PlayerList (names : List String)
  | GameSlotList (slots : List (String × Nat × Bool))
  deriving DecidableEq, Repr

/-- Variants of `Packet` (spec section 6; server.rs matches `Request`,
`Response`, `Update`, `UpdateReply`). The server never inspects the fields
of `Update`/`UpdateReply`, so they carry none here. -/
inductive Packet where
  | Request (sequence : Nat) (response_ack : Option Nat)
            (cookie : Option String) (action : RequestAction)
  | Response (sequence : Nat) (request_ack : Option Nat) (code : ResponseCode)
  | Update
  | UpdateReply
  deriving DecidableEq, Repr

/-- Errors returned by `decode_packet` (`io::Error` kinds used there). -/
inductive DecodeError where
  | invalidData (msg : String)
  | permissionDenied (msg : String)
  deriving DecidableEq, Repr

/-- Association-list lookup modelling `HashMap::get`. -/
def mapLookup (m : List (String × PlayerID)) (k : String) : Option PlayerID :=
  (m.find? (fun e => e.1 == k)).map (·.2)

/-- Association-list insert modelling `HashMap::insert` (new binding shadows
any older one for lookup). -/
def mapInsert (m : List (String × PlayerID)) (k : String) (v : PlayerID) :
    List (String × PlayerID) :=
  (k, v) :: m

/-- Source `GameSlot::new` (server.rs lines 121-132); the `new_cookie()` draw for
the slot id is the explicit `fresh` argument. -/
def GameSlot.new (fresh : String) (name : String) (player_ids : List PlayerID) :
    GameSlot :=
  { game_slot_id := fresh
    name := name
    player_ids := player_ids
    game_running := false
    univ := 0
    pending_messages := [] }

namespace ServerState

/-- Source `ServerState::new` (server.rs lines 371-380). -/
def new : ServerState :=
  { tick := 0
    ctr := 0
    players := []
    player_map := []
    game_slots := []
    next_player_id := 0 }

/-- Source `ServerState::is_unique_name` (server.rs lines 215-222). -/
def is_unique_name (s : ServerState) (name : String) : Bool :=
  s.players.all (fun p => p.player_name != name)

/-- Source `ServerState::get_player_id_by_cookie` (server.rs lines 224-229). -/
def get_player_id_by_cookie (s : ServerState) (cookie : String) :
    Option PlayerID :=
  mapLookup s.player_map cookie

/-- Source `ServerState::new_player` (server.rs lines 356-369); the cookie draw is
the `fresh` argument.  Returns the new player and the state with
`next_player_id` advanced (the Rust method mutates `self`). -/
def new_player (s : ServerState) (fresh : String) (name : String) (addr : Nat) :
    Player × ServerState :=
  let id := s.next_player_id
  ({ player_id := id
     cookie := fresh
     addr := addr
     player_name := name
     request_ack := none
     next_resp_seq := 0
     game_info := none },
   { s with next_player_id := id + 1 })

/-- Source `ServerState::has_pending_players` (server.rs lines 331-333). -/
def has_pending_players (s : ServerState) : Bool :=
  !s.players.isEmpty && s.players.length % 2 == 0

end ServerState

/-- The `for gs in &mut self.game_slots` loop of the `ChatMessage` arm:
append `(pid, msg)` to the pending messages of the first slot whose
`game_slot_id` matches; `none` when no slot matches (`found_slot == false`). -/
def pushMessageToSlot (slot_id : String) (pid : PlayerID) (msg : String) :
    List GameSlot → Option (List GameSlot)
  | [] => none
  | gs :: rest =>
    if gs.game_slot_id == slot_id then
      some ({ gs with pending_messages := gs.pending_messages ++ [(pid, msg)] } :: rest)
    else
      (pushMessageToSlot slot_id pid msg rest).map (fun rest' => gs :: rest')

/-- The `for gs in &mut self.game_slots` loop of the `JoinGameSlot` arm:
push `pid` onto the member list of the first slot named `slot_name` and
return the updated list together with that slot's `game_slot_id`; `none`
when no slot has that name. -/
def joinFirstSlot (slot_name : String) (pid : PlayerID) :
    List GameSlot → Option (List GameSlot × String)
  | [] => none
  | gs :: rest =>
    if gs.name == slot_name then
      some ({ gs with player_ids := gs.player_ids ++ [pid] } :: rest, gs.game_slot_id)
    else
      (joinFirstSlot slot_name pid rest).map (fun r => (gs :: r.1, r.2))

namespace ServerState

/-- Source `ServerState::process_request_action` (server.rs lines 136-213).
`fresh` is the `new_cookie()` draw used when a new game slot is created.
Rust mutates `self` and returns a `ResponseCode`; here the updated state is
returned alongside the code.  `unimplemented!()`/`panic!()` arms and the
`.unwrap()` on `players.get_mut` become `PanicOr.panic`. -/
def process_request_action (s : ServerState) (player_id : PlayerID)
    (action : RequestAction) (fresh : String) :
    PanicOr (ResponseCode × ServerState) :=
  match action with
  | .Disconnect => .panic "not implemented"
  | .KeepAlive => .panic "not implemented"
  | .ListPlayers =>
    .ok (.PlayerList (s.players.map (·.player_name)), s)
  | .ChatMessage msg =>
    match s.players.find? (fun p => p.player_id == player_id && p.game_info != none) with
    | some player =>
      match player.game_info with
      | some gi =>
        match pushMessageToSlot gi.game_slot_id player_id msg s.game_slots with
        | some slots' => .ok (.OK, { s with game_slots := slots' })
        | none =>
          .ok (.BadRequest (some ("Player \"" ++ PlayerID.display player_id
                                   ++ "\" not in game")), s)
      | none => .panic "called Option unwrap on a None value"
    | none =>
      .ok (.BadRequest (some ("Player \"" ++ PlayerID.display player_id
                               ++ "\" not found")), s)
  | .ListGameSlots =>
    .ok (.GameSlotList (s.game_slots.map
          (fun gs => (gs.name, gs.player_ids.length, gs.game_running))), s)
  | .NewGameSlot name =>
    -- Rust `String::len` is the UTF-8 byte length
    if name.utf8ByteSize > MAX_GAME_SLOT_NAME then
      .ok (.BadRequest (some ("game slot name too long; max "
                               ++ toString MAX_GAME_SLOT_NAME ++ " characters")), s)
    else
      .ok (.OK, { s with game_slots := s.game_slots ++ [GameSlot.new fresh name []] })
  | .JoinGameSlot slot_name =>
    match s.players[player_id]? with
    | none => .panic "called Option unwrap on a None value"
    | some player =>
      match joinFirstSlot slot_name player.player_id s.game_slots with
      | some r =>
        .ok (.OK, { s with
                    game_slots := r.1
                    players := s.players.set player_id
                      { player with game_info := some { game_slot_id := r.2 } } })
      | none =>
        -- Rust formats the name with `{:?}` (quoted); escaping of special
        -- characters inside the name is not modelled.
        .ok (.BadRequest (some ("no game slot named \"" ++ slot_name ++ "\"")), s)
  | .LeaveGameSlot => .panic "not implemented"
  | .Connect _ _ => .panic "explicit panic"
  | .None => .panic "explicit panic"

/-- The inner `match action` of `decode_packet`'s dispatch block
(server.rs lines 288-305): `Connect` reaching this point is
`unreachable!()`; any other action is dispatched through
`process_request_action`, after which the response sequence number is read
from the player and incremented. -/
def dispatch_inner (s : ServerState) (player_id : PlayerID)
    (action : RequestAction) (fresh : String) :
    PanicOr (Except DecodeError (Option Packet) × ServerState) :=
  match action with
  | .Connect _ _ => .panic "internal error: entered unreachable code"
  | _ =>
    match s.process_request_action player_id action fresh with
    | .panic m => .panic m
    | .ok (response_code, s1) =>
      match s1.players[player_id]? with
      | none => .panic "called Option unwrap on a None value"
      | some player =>
        let sequence := player.next_resp_seq
        let s2 := { s1 with
                    players := s1.players.set player_id
                      { player with next_resp_seq := player.next_resp_seq + 1 } }
        .ok (.ok (some (.Response sequence none response_code)), s2)

/-- The non-Connect else-block of `decode_packet` (server.rs lines 274-306):
look the player up by cookie, rejecting a missing cookie (`InvalidData`,
unreachable in context) or an unknown cookie (`PermissionDenied`), then
dispatch. -/
def dispatch_request (s : ServerState) (cookie : Option String)
    (action : RequestAction) (fresh : String) :
    PanicOr (Except DecodeError (Option Packet) × ServerState) :=
  match cookie with
  | none =>
    .ok (.error (.invalidData "cookie required for non-connect actions"), s)
  | some cookie =>
    match s.get_player_id_by_cookie cookie with
    | none => .ok (.error (.permissionDenied "invalid cookie"), s)
    | some player_id => s.dispatch_inner player_id action fresh

/-- Source `ServerState::decode_packet` (server.rs lines 232-329).  `fresh` is the
`new_cookie()` draw used on a successful Connect (player cookie) or when the
dispatched action creates a game slot. -/
def decode_packet (s : ServerState) (addr : Nat) (pkt : Packet) (fresh : String) :
    PanicOr (Except DecodeError (Option Packet) × ServerState) :=
  match pkt with
  | .Response _ _ _ =>
    .ok (.error (.invalidData "invalid packet - server-only"), s)
  | .Update =>
    .ok (.error (.invalidData "invalid packet - server-only"), s)
  | .UpdateReply => .panic "not implemented"
  | .Request _sequence _response_ack cookie action =>
    -- first check: non-Connect request with no cookie is malformed
    if (match action with
        | .Connect _ _ => false
        | _ => cookie == none) then
      .ok (.error (.invalidData "no cookie"), s)
    else
      match action with
      | .Connect name _client_version =>
        if s.is_unique_name name then
          let pr := s.new_player fresh name addr
          let player := pr.1
          let s1 := pr.2
          let cookie' := player.cookie
          let sequence := player.next_resp_seq
          let player := { player with next_resp_seq := player.next_resp_seq + 1 }
          let s2 := { s1 with
                      player_map := mapInsert s1.player_map cookie' player.player_id
                      players := s1.players ++ [player] }
          .ok (.ok (some (.Response sequence none (.LoggedIn cookie'))), s2)
        else
          .ok (.ok (some (.Response 0 none
                (.Unauthorized (some "not a unique name")))), s)
      | _ => s.dispatch_request cookie action fresh

/-- Source `ServerState::initiate_player_session` (server.rs lines 335-354).
`fresh` is the `new_cookie()` draw for the new slot's id.  The source pops
players `a` and `b` off the `players` vector, sets `game_info` on those
popped local copies, pushes the new slot, and then drops the copies — the
marked-joined records never return to `self.players`. -/
def initiate_player_session (s : ServerState) (fresh : String) :
    PanicOr ServerState :=
  if s.has_pending_players then
    match s.players.getLast? with
    | some a =>
      let s1 := { s with players := s.players.dropLast }
      match s1.players.getLast? with
      | some b =>
        let s2 := { s1 with players := s1.players.dropLast }
        let game_slot := GameSlot.new fresh "some game slot" [a.player_id, b.player_id]
        .ok { s2 with
              game_slots := s2.game_slots ++ [game_slot]
              ctr := s2.ctr + 1 }
      | none => .panic "Unavailable player B"
    | none => .panic "Unavailable player A"
  else
    .ok s

end ServerState

/-- The merged event stream of `main` (server.rs lines 384-388, 426-481). -/
inductive Event where
  | TickEvent
  | Request (addr : Nat) (opt_packet : Option Packet)
  deriving DecidableEq, Repr

/-- One iteration of the `fold` in `main` (server.rs lines 428-481): a
`Request` event decodes the packet — a decode error is logged and the loop
continues; a response packet is forwarded to the outbound channel — and a
`TickEvent` only increments the tick counter (the `initiate_player_session`
call is commented out in the source).  Returns the outbound packets sent
this iteration and the updated state; panics propagate (they terminate the
process). -/
def handleEvent (s : ServerState) (ev : Event) (fresh : String) :
    PanicOr (List (Nat × Packet) × ServerState) :=
  match ev with
  | .TickEvent => .ok ([], { s with tick := s.tick + 1 })
  | .Request addr opt_packet =>
    match opt_packet with
    | none => .ok ([], s)
    | some packet =>
      match s.decode_packet addr packet fresh with
      | .panic m => .panic m
      | .ok (.error _, s') => .ok ([], s')      -- logged, loop continues
      | .ok (.ok none, s') => .ok ([], s')
      | .ok (.ok (some response_packet), s') => .ok ([(addr, response_packet)], s')

/-! ## Observer definitions (specification side)

These definitions do not model source functions; they observe the embedded
server in order to state the specification's claims. -/

/-- Does the action carry the `Connect` tag? -/
def isConnectAction : RequestAction → Bool
  | .Connect _ _ => true
  | _ => false

/-- Actions whose dispatch arm panics in the source: `unimplemented!()` for
Disconnect/KeepAlive/LeaveGameSlot and `panic!()` for None (Connect cannot
reach the dispatcher). -/
def isPanickingAction : RequestAction → Bool
  | .Disconnect => true
  | .KeepAlive => true
  | .LeaveGameSlot => true
  | .None => true
  | _ => false

/-- The number of players not yet in any game slot (the spec's notion of
"unassigned" players). -/
def countUnassigned (s : ServerState) : Nat :=
  (s.players.filter (fun p => p.game_info == none)).length

/-- The conditions under which the spec says `decode_packet` rejects a
packet with a decode/authentication error: a server-only direction
(`Response`/`Update`), or a non-Connect request whose cookie is missing or
unknown. -/
def rejectCond (s : ServerState) (pkt : Packet) : Bool :=
  match pkt with
  | .Response _ _ _ => true
  | .Update => true
  | .UpdateReply => false
  | .Request _ _ cookie action =>
    !(isConnectAction action) &&
      (match cookie with
       | none => true
       | some c => (s.get_player_id_by_cookie c).isNone)

/-- The exact conditions under which handling an event panics: an
`UpdateReply` packet, or an authenticated request (known cookie) whose
action has a panicking dispatch arm. -/
def panicCond (s : ServerState) (ev : Event) : Bool :=
  match ev with
  | .TickEvent => false
  | .Request _ opt =>
    match opt with
    | none => false
    | some pkt =>
      match pkt with
      | .UpdateReply => true
      | .Request _ _ cookie action =>
        (match cookie with
         | some c => (s.get_player_id_by_cookie c).isSome
         | none => false) && isPanickingAction action
      | _ => false

/-- Reachability invariant of the event loop: player ids are exactly the
indices of the `players` vector, `next_player_id` is the vector's length,
and every cookie-map entry points inside the vector. -/
def LoopInv (s : ServerState) : Prop :=
  (∀ i, (h : i < s.players.length) → (s.players.get ⟨i, h⟩).player_id = i)
  ∧ s.next_player_id = s.players.length
  ∧ (∀ e ∈ s.player_map, e.2 < s.players.length)

instance (s : ServerState) : Decidable (LoopInv s) := by
  unfold LoopInv; infer_instance

/-- The next response sequence number the server would issue to the player
at index `i` (0 when no such player exists yet). -/
def startSeq (s : ServerState) (i : Nat) : Nat :=
  ((s.players[i]?).map Player.next_resp_seq).getD 0

/-- The player index a response produced for `pkt` in state `s` is issued
to: the freshly allocated index for a successful Connect, the cookie's
player for a dispatched request, none otherwise (rejections, and the
`Unauthorized` reply to a duplicate-name Connect, which belongs to no
session). -/
def stepTarget (s : ServerState) (pkt : Packet) : Option Nat :=
  match pkt with
  | .Request _ _ cookie action =>
    match action with
    | .Connect name _ =>
      if s.is_unique_name name then some s.players.length else none
    | _ =>
      match cookie with
      | some c => s.get_player_id_by_cookie c
      | none => none
  | _ => none

/-- One inbound datagram together with the random draw its handling uses. -/
structure StepIn where
  addr  : Nat
  pkt   : Packet
  fresh : String
  deriving DecidableEq, Repr

/-- Run a list of inbound datagrams through `decode_packet`, accumulating
the `(player index, response sequence)` pairs of the issued responses in
order; `none` when a step panics (the process dies). -/
def runLog : ServerState → List StepIn → Option (ServerState × List (Nat × Nat))
  | s, [] => some (s, [])
  | s, inp :: rest =>
    match s.decode_packet inp.addr inp.pkt inp.fresh with
    | .panic _ => none
    | .ok (res, s') =>
      let entry : List (Nat × Nat) :=
        match res, stepTarget s inp.pkt with
        | .ok (some (.Response q _ _)), some i => [(i, q)]
        | _, _ => []
      (runLog s' rest).map (fun r => (r.1, entry ++ r.2))

/-! ## Transport layer (netwaystev2)

Only the interface of the transport layer is in the sources
(src/netwaystev2/src/transport/interface.rs); the implementation behind
`TransportCmd::SendPackets` is not. The queue behaviour below is therefore
modelled from the spec. -/

/-- Source `pub const UDP_MTU_SIZE: usize = 1472;` (interface.rs). -/
def UDP_MTU_SIZE : Nat := 1472

/-- A wire packet as the transport queue sees it: only its encoded size
matters for the MTU check. -/
structure WirePacket where
  encoded_size : Nat
  deriving DecidableEq, Repr

/-- Source `PacketSettings` (interface.rs): transmit id and retry interval
(milliseconds). -/
structure PacketSettings where
  tid            : Nat
  retry_interval : Nat
  deriving DecidableEq, Repr

/-- Source `TransportRsp` (interface.rs); `EndpointError`'s `anyhow::Error`
payload is dropped. -/
inductive TransportRsp where
  | Accepted
  | BufferFull
  | ExceedsMtu (tid : Nat)
  | EndpointError
  | SendPacketsLengthMismatch
  deriving DecidableEq, Repr

/-- Modelled from the spec: one endpoint's transmit queue — the queued
`(tid, packet)` entries and the queue's capacity.  The implementation of
the transport layer is not among the sources; only its interface is. -/
structure TransmitQueue where
  entries  : List (Nat × WirePacket)
  capacity : Nat
  deriving DecidableEq, Repr

/-- First MTU violation among the paired (settings, packet) lists,
returning the offending transmit id. -/
def firstMtuViolation : List PacketSettings → List WirePacket → Option Nat
  | ps :: pss, pk :: pks =>
    if pk.encoded_size > UDP_MTU_SIZE then some ps.tid
    else firstMtuViolation pss pks
  | _, _ => none

/-- Modelled from the spec: `SendPackets(endpoint, settings[], packets[])`
"validates encoded size ≤ 1472 bytes (else fails the whole call with
`ExceedsMtu{tid}`) and that `settings.len() == packets.len()` (else
`SendPacketsLengthMismatch`); enqueues atomically — either all packets in
the call are queued or none are (no partial enqueue); if queue capacity is
exhausted, fails `BufferFull`."  The transport implementation is not among
the sources. -/
def sendPackets (q : TransmitQueue) (settings : List PacketSettings)
    (packets : List WirePacket) : TransportRsp × TransmitQueue :=
  if settings.length ≠ packets.length then
    (.SendPacketsLengthMismatch, q)
  else
    match firstMtuViolation settings packets with
    | some tid => (.ExceedsMtu tid, q)
    | none =>
      if q.entries.length + packets.length > q.capacity then
        (.BufferFull, q)
      else
        (.Accepted, { q with entries := q.entries ++ (settings.map (·.tid)).zip packets })

/-! ## Concrete states used by counterexamples and witnesses -/

/-- A lobby player with id `i` and no game-slot membership. -/
def mkPlayer (i : Nat) : Player :=
  { player_id := i
    cookie := "c" ++ toString i
    addr := i
    player_name := "p" ++ toString i
    request_ack := none
    next_resp_seq := 0
    game_info := none }

/-- Four players, none in any game slot. -/
def sFour : ServerState :=
  { ServerState.new with
    players := [mkPlayer 0, mkPlayer 1, mkPlayer 2, mkPlayer 3]
    next_player_id := 4 }

/-- State `sFour` after one run of the auto-pairing policy. -/
def sFourPaired : ServerState :=
  { sFour with
    players := [mkPlayer 0, mkPlayer 1]
    game_slots := [GameSlot.new "GS" "some game slot" [3, 2]]
    ctr := 1 }

/-- Two players, none in any game slot. -/
def sTwo : ServerState :=
  { ServerState.new with players := [mkPlayer 0, mkPlayer 1], next_player_id := 2 }

/-- One registered player whose session cookie is "CA". -/
def sOne : ServerState :=
  { ServerState.new with
    players := [{ mkPlayer 0 with cookie := "CA" }]
    player_map := [("CA", 0)]
    next_player_id := 1 }

/-- Nine two-byte characters: 9 characters but 18 UTF-8 bytes. -/
def alphaName : String := "ααααααααα"

def dupSlotA : GameSlot := GameSlot.new "g1" "dup" []

def dupSlotB : GameSlot := GameSlot.new "g2" "dup" []

def sDupOne : ServerState := { ServerState.new with game_slots := [dupSlotA] }

def sDupTwo : ServerState := { ServerState.new with game_slots := [dupSlotA, dupSlotB] }

def slotA : GameSlot := GameSlot.new "ga" "roomA" []

def slotB : GameSlot := GameSlot.new "gb" "roomB" []

/-- One player in the lobby, two empty game slots. -/
def sJoin0 : ServerState :=
  { ServerState.new with
    players := [mkPlayer 0]
    game_slots := [slotA, slotB]
    next_player_id := 1 }

/-- State `sJoin0` after the player joined `roomA`. -/
def sJoin1 : ServerState :=
  { sJoin0 with
    players := [{ mkPlayer 0 with game_info := some { game_slot_id := "ga" } }]
    game_slots := [{ slotA with player_ids := [0] }, slotB] }

/-- State `sJoin1` after the player also joined `roomB`: the member lists of both
slots now contain player 0. -/
def sJoin2 : ServerState :=
  { sJoin0 with
    players := [{ mkPlayer 0 with game_info := some { game_slot_id := "gb" } }]
    game_slots := [{ slotA with player_ids := [0] }, { slotB with player_ids := [0] }] }

/-- A Connect followed by an authenticated ListPlayers request. -/
def wTrace : List StepIn :=
  [ { addr := 7, pkt := .Request 0 none none (.Connect "alice" "v1"), fresh := "CA" },
    { addr := 7, pkt := .Request 1 none (some "CA") .ListPlayers, fresh := "x" } ]

/-- The state `wTrace` ends in. -/
def wState : ServerState :=
  { tick := 0
    ctr := 0
    players := [{ player_id := 0
                  cookie := "CA"
                  addr := 7
                  player_name := "alice"
                  request_ack := none
                  next_resp_seq := 2
                  game_info := none }]
    player_map := [("CA", 0)]
    game_slots := []
    next_player_id := 1 }

/-- The issued-response log of `wTrace`. -/
def wLog : List (Nat × Nat) := [(0, 0), (0, 1)]

/-- An empty transmit queue with room for four entries. -/
def qW : TransmitQueue := { entries := [], capacity := 4 }

/-! ## Theorems -/

/-- Claim C1, counterexample: with four unassigned players (an even count,
`n = 2`), one run of the auto-pairing policy creates one game slot — not
two — and afterwards no player is assigned to a slot: the two paired
players were popped off the player list and their records dropped, and the
two remaining players are untouched. -/
theorem C1_pairing_counterexample :
    countUnassigned sFour = 4 ∧
    sFour.initiate_player_session "GS" = .ok sFourPaired ∧
    sFourPaired.game_slots.length = 1 ∧
    ¬ sFourPaired.game_slots.length = 2 ∧
    countUnassigned sFourPaired = 2 ∧
    sFourPaired.players.all (fun p => p.game_info == none) = true ∧
    sFourPaired.players.all (fun p => p.player_id != 3) = true := by
  decide

/-- Claim C5, counterexample: handling an inbound `UpdateReply` datagram
panics (the source's `unimplemented!()` arm), terminating the event loop. -/
theorem C5_updatereply_panics :
    handleEvent ServerState.new (.Request 0 (some .UpdateReply)) "f" =
      .panic "not implemented" := by
  decide

/-- Claim C7, counterexample: the source checks `name.len()`, the UTF-8
byte length, not the character count.  A 9-character name of two-byte
characters (18 bytes) is rejected with `BadRequest` even though it is at
most 16 characters, and no slot is created. -/
theorem C7_bytes_counterexample :
    alphaName.length = 9 ∧
    ServerState.new.process_request_action 0 (.NewGameSlot alphaName) "G" =
      .ok (.BadRequest (some "game slot name too long; max 16 characters"),
           ServerState.new) := by
  decide

/-- Claim C7, amended: `NewGameSlot(name)` answers `BadRequest` and creates
no slot when `name`'s UTF-8 byte length exceeds 16, and otherwise (at most
16 bytes) creates an empty slot with that name and answers `OK`. -/
theorem C7_amended_new_game_slot (s : ServerState) (i : PlayerID)
    (nm fresh : String) :
    (nm.utf8ByteSize > 16 →
      s.process_request_action i (.NewGameSlot nm) fresh =
        .ok (.BadRequest (some "game slot name too long; max 16 characters"), s)) ∧
    (nm.utf8ByteSize ≤ 16 →
      s.process_request_action i (.NewGameSlot nm) fresh =
        .ok (.OK, { s with game_slots := s.game_slots ++ [GameSlot.new fresh nm []] })) := by
  constructor
  · intro h
    simp only [ServerState.process_request_action]
    rw [if_pos (show nm.utf8ByteSize > MAX_GAME_SLOT_NAME from h)]
    rfl
  · intro h
    have h' : ¬ (nm.utf8ByteSize > MAX_GAME_SLOT_NAME) := by
      unfold MAX_GAME_SLOT_NAME; omega
    simp only [ServerState.process_request_action]
    rw [if_neg h']

/-- Claim C7, witness for the amended theorem: a 17-byte name is rejected,
a 16-byte name creates the slot. -/
theorem C7_amended_new_game_slot_witness :
    ServerState.new.process_request_action 0 (.NewGameSlot "abcdefghijklmnopq") "G" =
      .ok (.BadRequest (some "game slot name too long; max 16 characters"),
           ServerState.new) ∧
    ServerState.new.process_request_action 0 (.NewGameSlot "abcdefghijklmnop") "G" =
      .ok (.OK, { ServerState.new with
                  game_slots := [GameSlot.new "G" "abcdefghijklmnop" []] }) :=
  ⟨(C7_amended_new_game_slot ServerState.new 0 "abcdefghijklmnopq" "G").1 (by decide),
   (C7_amended_new_game_slot ServerState.new 0 "abcdefghijklmnop" "G").2 (by decide)⟩

/-- Claim C8: the source's `NewGameSlot` arm performs no name-uniqueness
check (its own comment reads "XXX check name uniqueness"), so two
`NewGameSlot("dup")` requests create two active slots with the same name,
violating the claimed invariant. -/
theorem C8_duplicate_names :
    ServerState.new.process_request_action 0 (.NewGameSlot "dup") "g1" =
      .ok (.OK, sDupOne) ∧
    sDupOne.process_request_action 0 (.NewGameSlot "dup") "g2" =
      .ok (.OK, sDupTwo) ∧
    sDupTwo.game_slots.map (·.name) = ["dup", "dup"] ∧
    ¬ (sDupTwo.game_slots.map (·.name)).Nodup := by
  refine ⟨by decide, by decide, by decide, ?_⟩
  decide

/-- Claim C9, counterexample: a player who joins `roomA` and then `roomB`
ends up in the member lists of both slots — `JoinGameSlot` never removes
the caller from the previous slot — so a player id appears in two slots'
member lists at once. -/
theorem C9_two_slots_counterexample :
    sJoin0.process_request_action 0 (.JoinGameSlot "roomA") "x" = .ok (.OK, sJoin1) ∧
    sJoin1.process_request_action 0 (.JoinGameSlot "roomB") "y" = .ok (.OK, sJoin2) ∧
    (sJoin2.game_slots.filter (fun gs => gs.player_ids.contains 0)).length = 2 ∧
    ¬ (sJoin2.game_slots.filter (fun gs => gs.player_ids.contains 0)).length ≤ 1 := by
  decide

/-- Claim C1, amended: a run of the auto-pairing policy does nothing when
the total player count (assigned players included — the source tests
`players.len()`, not the unassigned count) is zero or odd; when it is even
and non-zero it performs exactly one pairing: it pops the two
most-recently-added players off the player list, creates one fresh
two-player slot named "some game slot" holding their ids, and increments
the pairing counter — the popped players leave the player list and their
locally marked-joined records are dropped, so neither remains assigned. -/
theorem C1_amended_pairing (s : ServerState) (fresh : String) :
    (s.players = [] ∨ s.players.length % 2 = 1 →
      s.initiate_player_session fresh = .ok s) ∧
    (∀ init b a, s.players = init ++ [b, a] → s.players.length % 2 = 0 →
      s.initiate_player_session fresh =
        .ok { s with
              players := init
              game_slots := s.game_slots ++
                [GameSlot.new fresh "some game slot" [a.player_id, b.player_id]]
              ctr := s.ctr + 1 }) := by
  constructor
  · intro h
    have hc : s.has_pending_players = false := by
      rcases h with h | h
      · simp [ServerState.has_pending_players, h]
      · simp [ServerState.has_pending_players, h]
    simp [ServerState.initiate_player_session, hc]
  · intro init b a hdec heven
    have hne : s.players ≠ [] := by rw [hdec]; simp
    have hc : s.has_pending_players = true := by
      simp only [ServerState.has_pending_players, Bool.and_eq_true, Bool.not_eq_true',
        beq_iff_eq, heven, and_true]
      exact List.isEmpty_eq_false.mpr hne
    have e1 : s.players = (init ++ [b]) ++ [a] := by rw [hdec]; simp
    simp only [ServerState.initiate_player_session, hc, if_true, e1,
      List.getLast?_concat, List.dropLast_concat]

/-- Claim C1, witness for the amended theorem: a two-player lobby yields a
single slot holding ids `[1, 0]` and an empty player list. -/
theorem C1_amended_pairing_witness :
    sTwo.initiate_player_session "GS" =
      .ok { sTwo with
            players := []
            game_slots := [GameSlot.new "GS" "some game slot" [1, 0]]
            ctr := 1 } :=
  (C1_amended_pairing sTwo "GS").2 [] (mkPlayer 0) (mkPlayer 1) (by decide) (by decide)

/-- Appending a chat message touches no slot when none matches the id. -/
theorem pushMessageToSlot_eq_none (sid : String) (pid : PlayerID) (msg : String)
    (l : List GameSlot) (h : ∀ g ∈ l, g.game_slot_id ≠ sid) :
    pushMessageToSlot sid pid msg l = none := by
  induction l with
  | nil => rfl
  | cons gs rest ih =>
    have h1 : (gs.game_slot_id == sid) = false :=
      beq_eq_false_iff_ne.mpr (h gs (List.mem_cons_self gs rest))
    simp [pushMessageToSlot, h1, ih (fun g hg => h g (List.mem_cons_of_mem _ hg))]

/-- Appending a chat message updates exactly the first slot whose id
matches, leaving every other slot unchanged. -/
theorem pushMessageToSlot_decomp (sid : String) (pid : PlayerID) (msg : String)
    (pre : List GameSlot) (slot : GameSlot) (post : List GameSlot)
    (hid : slot.game_slot_id = sid) (hpre : ∀ g ∈ pre, g.game_slot_id ≠ sid) :
    pushMessageToSlot sid pid msg (pre ++ slot :: post) =
      some (pre ++
        { slot with pending_messages := slot.pending_messages ++ [(pid, msg)] } :: post) := by
  induction pre with
  | nil => simp [pushMessageToSlot, hid]
  | cons g rest ih =>
    have h1 : (g.game_slot_id == sid) = false :=
      beq_eq_false_iff_ne.mpr (hpre g (List.mem_cons_self g rest))
    simp [pushMessageToSlot, h1, ih (fun g' hg => hpre g' (List.mem_cons_of_mem _ hg))]

/-- Joining touches no slot when none has the requested name. -/
theorem joinFirstSlot_eq_none (nm : String) (pid : PlayerID) (l : List GameSlot)
    (h : ∀ g ∈ l, g.name ≠ nm) : joinFirstSlot nm pid l = none := by
  induction l with
  | nil => rfl
  | cons gs rest ih =>
    have h1 : (gs.name == nm) = false :=
      beq_eq_false_iff_ne.mpr (h gs (List.mem_cons_self gs rest))
    simp [joinFirstSlot, h1, ih (fun g hg => h g (List.mem_cons_of_mem _ hg))]

/-- Joining appends the player id to exactly the first slot with the
requested name, leaving every other slot unchanged, and reports that
slot's id. -/
theorem joinFirstSlot_decomp (nm : String) (pid : PlayerID)
    (pre : List GameSlot) (slot : GameSlot) (post : List GameSlot)
    (hname : slot.name = nm) (hpre : ∀ g ∈ pre, g.name ≠ nm) :
    joinFirstSlot nm pid (pre ++ slot :: post) =
      some (pre ++ { slot with player_ids := slot.player_ids ++ [pid] } :: post,
            slot.game_slot_id) := by
  induction pre with
  | nil => simp [joinFirstSlot, hname]
  | cons g rest ih =>
    have h1 : (g.name == nm) = false :=
      beq_eq_false_iff_ne.mpr (hpre g (List.mem_cons_self g rest))
    simp [joinFirstSlot, h1, ih (fun g' hg => hpre g' (List.mem_cons_of_mem _ hg))]

/-- Claim C9, amended: `JoinGameSlot(name)` appends the caller's id to the
member list of the first slot with that name and overwrites the caller's
membership field with that slot's id; it does not remove the caller from
any other slot's member list (every other slot is returned unchanged), so
a player who joins repeatedly appears in several member lists, and the
membership field names only the most recently joined slot.  With no slot
of that name the response is `BadRequest` and the state is unchanged. -/
theorem C9_amended_join_game_slot (s : ServerState) (i : PlayerID)
    (nm fresh : String) (p : Player) (hp : s.players[i]? = some p) :
    (∀ pre slot post, s.game_slots = pre ++ slot :: post → slot.name = nm →
      (∀ g ∈ pre, g.name ≠ nm) →
      s.process_request_action i (.JoinGameSlot nm) fresh =
        .ok (.OK, { s with
                    game_slots := pre ++
                      { slot with player_ids := slot.player_ids ++ [p.player_id] } :: post
                    players := s.players.set i
                      { p with game_info := some { game_slot_id := slot.game_slot_id } } })) ∧
    ((∀ g ∈ s.game_slots, g.name ≠ nm) →
      s.process_request_action i (.JoinGameSlot nm) fresh =
        .ok (.BadRequest (some ("no game slot named \"" ++ nm ++ "\"")), s)) := by
  constructor
  · intro pre slot post hdec hname hpre
    simp only [ServerState.process_request_action, hp, hdec,
      joinFirstSlot_decomp nm p.player_id pre slot post hname hpre]
  · intro hall
    simp only [ServerState.process_request_action, hp,
      joinFirstSlot_eq_none nm p.player_id s.game_slots hall]

/-- Claim C9, witness for the amended theorem: the player already in
`roomA` joins `roomB`; `roomA`'s member list still contains the id. -/
theorem C9_amended_join_game_slot_witness :
    sJoin1.process_request_action 0 (.JoinGameSlot "roomB") "y" = .ok (.OK, sJoin2) :=
  (C9_amended_join_game_slot sJoin1 0 "roomB" "y"
      { mkPlayer 0 with game_info := some { game_slot_id := "ga" } } (by decide)).1
    [{ slotA with player_ids := [0] }] slotB [] (by decide) (by decide) (by decide)

/-- Claim C6: `ChatMessage(msg)` from a player with no game-slot membership
(no player record with the caller's id has its membership field set)
answers `BadRequest` and changes nothing; from a member of a game slot it
appends `(sender, msg)` to that slot's pending-message queue — the first
slot carrying the member's slot id — and answers `OK`. -/
theorem C6_chat_message (s : ServerState) (i : PlayerID) (msg fresh : String) :
    (s.players.find? (fun p => p.player_id == i && p.game_info != none) = none →
      s.process_request_action i (.ChatMessage msg) fresh =
        .ok (.BadRequest (some ("Player \"" ++ PlayerID.display i ++ "\" not found")), s)) ∧
    (∀ p gi pre slot post,
      s.players.find? (fun p => p.player_id == i && p.game_info != none) = some p →
      p.game_info = some gi →
      s.game_slots = pre ++ slot :: post →
      slot.game_slot_id = gi.game_slot_id →
      (∀ g ∈ pre, g.game_slot_id ≠ gi.game_slot_id) →
      s.process_request_action i (.ChatMessage msg) fresh =
        .ok (.OK, { s with game_slots := pre ++
          { slot with pending_messages := slot.pending_messages ++ [(i, msg)] } :: post })) := by
  constructor
  · intro h
    simp only [ServerState.process_request_action, h]
  · intro p gi pre slot post hfind hgi hdec hsid hpre
    simp only [ServerState.process_request_action, hfind, hgi, hdec,
      pushMessageToSlot_decomp gi.game_slot_id i msg pre slot post hsid hpre]

/-- Claim C6, witness: without membership the chat is rejected; with
membership in `roomA` the message lands in that slot's pending queue. -/
theorem C6_chat_message_witness :
    sJoin0.process_request_action 0 (.ChatMessage "hi") "f" =
      .ok (.BadRequest (some "Player \"(0)\" not found"), sJoin0) ∧
    sJoin1.process_request_action 0 (.ChatMessage "hi") "f" =
      .ok (.OK, { sJoin1 with game_slots :=
        [{ slotA with player_ids := [0], pending_messages := [(0, "hi")] }, slotB] }) :=
  ⟨(C6_chat_message sJoin0 0 "hi" "f").1 (by decide),
   (C6_chat_message sJoin1 0 "hi" "f").2
     { mkPlayer 0 with game_info := some { game_slot_id := "ga" } }
     { game_slot_id := "ga" } [] { slotA with player_ids := [0] } [slotB]
     (by decide) (by decide) (by decide) (by decide) (by decide)⟩

/-- For a non-Connect action, `decode_packet` reduces to the missing-cookie
check followed by the cookie-authenticated dispatch block. -/
theorem decode_nonconnect (s : ServerState) (addr : Nat) (seqn : Nat)
    (rack : Option Nat) (ck : Option String) (a : RequestAction) (fresh : String)
    (ha : isConnectAction a = false) :
    s.decode_packet addr (.Request seqn rack ck a) fresh =
      if ck == none then .ok (.error (.invalidData "no cookie"), s)
      else s.dispatch_request ck a fresh := by
  cases a <;> first | rfl | simp [isConnectAction] at ha

/-- For a non-Connect action, `dispatch_inner` reduces to dispatch through
`process_request_action` followed by the response-sequence update. -/
theorem dispatch_inner_eq (s : ServerState) (pid : PlayerID) (fresh : String)
    (a : RequestAction) (ha : isConnectAction a = false) :
    s.dispatch_inner pid a fresh =
      match s.process_request_action pid a fresh with
      | .panic m => .panic m
      | .ok (response_code, s1) =>
        match s1.players[pid]? with
        | none => .panic "called Option unwrap on a None value"
        | some player =>
          .ok (.ok (some (.Response player.next_resp_seq none response_code)),
               { s1 with
                 players := s1.players.set pid
                   { player with next_resp_seq := player.next_resp_seq + 1 } }) := by
  cases a <;> first | rfl | simp [isConnectAction] at ha

/-- Shape lemma: `dispatch_inner` either panics or produces a `Response` packet carrying
the dispatched player's pre-update sequence number; it never produces a
decode error and never returns without a response. -/
theorem dispatch_inner_shape (s : ServerState) (pid : PlayerID)
    (a : RequestAction) (fresh : String) (ha : isConnectAction a = false) :
    (∃ m, s.dispatch_inner pid a fresh = .panic m) ∨
    (∃ code s1 player,
      s.process_request_action pid a fresh = .ok (code, s1) ∧
      s1.players[pid]? = some player ∧
      s.dispatch_inner pid a fresh =
        .ok (.ok (some (.Response player.next_resp_seq none code)),
             { s1 with
               players := s1.players.set pid
                 { player with next_resp_seq := player.next_resp_seq + 1 } })) := by
  rcases hpra : s.process_request_action pid a fresh with ⟨code, s1⟩ | m
  · rcases hpl : s1.players[pid]? with _ | player
    · refine Or.inl ⟨"called Option unwrap on a None value", ?_⟩
      simp only [dispatch_inner_eq s pid fresh a ha, hpra, hpl]
    · refine Or.inr ⟨code, s1, player, rfl, hpl, ?_⟩
      simp only [dispatch_inner_eq s pid fresh a ha, hpra, hpl]
  · refine Or.inl ⟨m, ?_⟩
    simp only [dispatch_inner_eq s pid fresh a ha, hpra]

/-- A successful `process_request_action` never adds or removes players,
never changes any player's id or response sequence (only `game_info` and
the game slots can change), and leaves the cookie map and the id counter
alone. -/
theorem pra_preserves (s : ServerState) (pid : PlayerID) (a : RequestAction)
    (fresh : String) (code : ResponseCode) (s1 : ServerState)
    (h : s.process_request_action pid a fresh = .ok (code, s1)) :
    s1.players.length = s.players.length ∧
    (∀ j : Nat, (s1.players[j]?).map Player.player_id
                  = (s.players[j]?).map Player.player_id) ∧
    (∀ j : Nat, (s1.players[j]?).map Player.next_resp_seq
                  = (s.players[j]?).map Player.next_resp_seq) ∧
    s1.player_map = s.player_map ∧
    s1.next_player_id = s.next_player_id := by
  cases a
  case Disconnect => simp [ServerState.process_request_action] at h
  case KeepAlive => simp [ServerState.process_request_action] at h
  case LeaveGameSlot => simp [ServerState.process_request_action] at h
  case Connect n v => simp [ServerState.process_request_action] at h
  case None => simp [ServerState.process_request_action] at h
  case ListPlayers =>
    simp only [ServerState.process_request_action, PanicOr.ok.injEq, Prod.mk.injEq] at h
    rw [← h.2]
    exact ⟨rfl, fun j => rfl, fun j => rfl, rfl, rfl⟩
  case ListGameSlots =>
    simp only [ServerState.process_request_action, PanicOr.ok.injEq, Prod.mk.injEq] at h
    rw [← h.2]
    exact ⟨rfl, fun j => rfl, fun j => rfl, rfl, rfl⟩
  case ChatMessage msg =>
    revert h
    simp only [ServerState.process_request_action]
    split
    · split
      · split
        · intro h
          simp only [PanicOr.ok.injEq, Prod.mk.injEq] at h
          rw [← h.2]
          exact ⟨rfl, fun j => rfl, fun j => rfl, rfl, rfl⟩
        · intro h
          simp only [PanicOr.ok.injEq, Prod.mk.injEq] at h
          rw [← h.2]
          exact ⟨rfl, fun j => rfl, fun j => rfl, rfl, rfl⟩
      · intro h; exact absurd h (by simp)
    · intro h
      simp only [PanicOr.ok.injEq, Prod.mk.injEq] at h
      rw [← h.2]
      exact ⟨rfl, fun j => rfl, fun j => rfl, rfl, rfl⟩
  case NewGameSlot nm =>
    revert h
    simp only [ServerState.process_request_action]
    split
    · intro h
      simp only [PanicOr.ok.injEq, Prod.mk.injEq] at h
      rw [← h.2]
      exact ⟨rfl, fun j => rfl, fun j => rfl, rfl, rfl⟩
    · intro h
      simp only [PanicOr.ok.injEq, Prod.mk.injEq] at h
      rw [← h.2]
      exact ⟨rfl, fun j => rfl, fun j => rfl, rfl, rfl⟩
  case JoinGameSlot nm =>
    revert h
    simp only [ServerState.process_request_action]
    split
    · intro h; exact absurd h (by simp)
    next player hpl =>
      split
      · intro h
        simp only [PanicOr.ok.injEq, Prod.mk.injEq] at h
        rw [← h.2]
        have hlt : pid < s.players.length := by
          rcases List.getElem?_eq_some.mp hpl with ⟨hl, _⟩
          exact hl
        refine ⟨List.length_set s.players pid _, fun j => ?_, fun j => ?_, rfl, rfl⟩
        · by_cases hj : pid = j
          · subst hj
            rw [List.getElem?_set_eq_of_lt _ hlt, hpl]
            rfl
          · rw [List.getElem?_set_ne hj]
        · by_cases hj : pid = j
          · subst hj
            rw [List.getElem?_set_eq_of_lt _ hlt, hpl]
            rfl
          · rw [List.getElem?_set_ne hj]
      · intro h
        simp only [PanicOr.ok.injEq, Prod.mk.injEq] at h
        rw [← h.2]
        exact ⟨rfl, fun j => rfl, fun j => rfl, rfl, rfl⟩

/-- Given a valid player index, dispatching an action panics exactly when
the action's arm is `unimplemented!()`/`panic!()` in the source. -/
theorem pra_panic_iff (s : ServerState) (pid : PlayerID) (a : RequestAction)
    (fresh : String) (hpid : pid < s.players.length) (ha : isConnectAction a = false) :
    (∃ m, s.process_request_action pid a fresh = .panic m) ↔
      isPanickingAction a = true := by
  cases a
  case Disconnect => simp [ServerState.process_request_action, isPanickingAction]
  case KeepAlive => simp [ServerState.process_request_action, isPanickingAction]
  case LeaveGameSlot => simp [ServerState.process_request_action, isPanickingAction]
  case None => simp [ServerState.process_request_action, isPanickingAction]
  case Connect n v => simp [isConnectAction] at ha
  case ListPlayers => simp [ServerState.process_request_action, isPanickingAction]
  case ListGameSlots => simp [ServerState.process_request_action, isPanickingAction]
  case NewGameSlot nm =>
    simp only [ServerState.process_request_action, isPanickingAction]
    split <;> simp
  case ChatMessage msg =>
    simp only [ServerState.process_request_action, isPanickingAction]
    rcases hf : s.players.find? (fun p => p.player_id == pid && p.game_info != none)
      with _ | p
    · simp [hf]
    · have hp := List.find?_some hf
      simp only [Bool.and_eq_true] at hp
      rcases hgi : p.game_info with _ | gi
      · rw [hgi] at hp
        simp at hp
      · rcases hpush : pushMessageToSlot gi.game_slot_id pid msg s.game_slots
          with _ | slots'
        · simp [hf, hgi, hpush]
        · simp [hf, hgi, hpush]
  case JoinGameSlot nm =>
    simp only [ServerState.process_request_action, isPanickingAction]
    rcases hpl : s.players[pid]? with _ | player
    · rw [List.getElem?_eq_getElem hpid] at hpl
      cases hpl
    · rcases hj : joinFirstSlot nm player.player_id s.game_slots with _ | r
      · simp [hpl, hj]
      · simp [hpl, hj]

/-- Reduction of `decode_packet` on a Connect request: duplicate names are refused with
`Unauthorized`, otherwise the new player is registered and logged in. -/
theorem decode_connect (s : ServerState) (addr : Nat) (seqn : Nat)
    (rack : Option Nat) (ck : Option String) (n v fresh : String) :
    s.decode_packet addr (.Request seqn rack ck (.Connect n v)) fresh =
      (if s.is_unique_name n then
        .ok (.ok (some (.Response 0 none (.LoggedIn fresh))),
             { s with
               next_player_id := s.next_player_id + 1
               player_map := (fresh, s.next_player_id) :: s.player_map
               players := s.players ++
                 [{ player_id := s.next_player_id
                    cookie := fresh
                    addr := addr
                    player_name := n
                    request_ack := none
                    next_resp_seq := 1
                    game_info := none }] })
      else
        .ok (.ok (some (.Response 0 none (.Unauthorized (some "not a unique name")))), s)) :=
  rfl

/-- Characterization: `decode_packet` yields a decode/authentication error exactly under
`rejectCond`, and an error always leaves the state untouched. -/
theorem decode_error_char (s : ServerState) (addr : Nat) (pkt : Packet)
    (fresh : String) :
    (rejectCond s pkt = true →
      ∃ e, s.decode_packet addr pkt fresh = .ok (.error e, s)) ∧
    (rejectCond s pkt = false →
      ∀ e s2, s.decode_packet addr pkt fresh ≠ .ok (.error e, s2)) := by
  cases pkt with
  | Response q ra c =>
    exact ⟨fun _ => ⟨.invalidData "invalid packet - server-only", rfl⟩,
           fun hfalse => by simp [rejectCond] at hfalse⟩
  | Update =>
    exact ⟨fun _ => ⟨.invalidData "invalid packet - server-only", rfl⟩,
           fun hfalse => by simp [rejectCond] at hfalse⟩
  | UpdateReply =>
    refine ⟨fun htrue => by simp [rejectCond] at htrue, fun _ e s2 h => ?_⟩
    exact absurd h (by simp [ServerState.decode_packet])
  | Request seqn rack ck a =>
    by_cases hca : isConnectAction a = true
    · have hrc : rejectCond s (.Request seqn rack ck a) = false := by
        simp [rejectCond, hca]
      refine ⟨fun htrue => ?_, fun _ e s2 h => ?_⟩
      · rw [hrc] at htrue
        cases htrue
      cases a <;> simp [isConnectAction] at hca
      next n v =>
      rw [decode_connect] at h
      revert h
      split <;> simp
    · have ha : isConnectAction a = false := by
        revert hca; cases isConnectAction a <;> simp
      rw [decode_nonconnect s addr seqn rack ck a fresh ha]
      cases ck with
      | none =>
        refine ⟨fun _ => ⟨.invalidData "no cookie", by rfl⟩, fun hfalse => ?_⟩
        simp [rejectCond, ha] at hfalse
      | some c =>
        rw [if_neg (by simp)]
        rcases hlook : s.get_player_id_by_cookie c with _ | pid
        · refine ⟨fun _ => ⟨.permissionDenied "invalid cookie",
            by simp [ServerState.dispatch_request, hlook]⟩, fun hfalse => ?_⟩
          simp [rejectCond, ha, hlook] at hfalse
        · have hd : s.dispatch_request (some c) a fresh = s.dispatch_inner pid a fresh := by
            simp [ServerState.dispatch_request, hlook]
          refine ⟨fun htrue => ?_, fun _ e s2 h => ?_⟩
          · simp [rejectCond, ha, hlook] at htrue
          · rw [hd] at h
            rcases dispatch_inner_shape s pid a fresh ha
              with ⟨m, hm⟩ | ⟨code, s1, player, _, _, hok⟩
            · rw [hm] at h; cases h
            · rw [hok] at h; simp at h

/-- Claim C4: `decode_packet` rejects an inbound packet with a
decode/authentication error exactly when the packet travels in the
server-only direction (`Response`/`Update`) or is a non-Connect request
with a missing or unknown cookie; every rejection leaves the state
unchanged, and an unknown cookie is answered `PermissionDenied` uniformly
for every action — before the per-action dispatcher can contribute. -/
theorem C4_decode_rejection (s : ServerState) (addr : Nat) (pkt : Packet)
    (fresh : String) :
    ((∃ e s2, s.decode_packet addr pkt fresh = .ok (.error e, s2)) ↔
      rejectCond s pkt = true) ∧
    (∀ e s2, s.decode_packet addr pkt fresh = .ok (.error e, s2) → s2 = s) ∧
    (∀ seqn rack c a, pkt = .Request seqn rack (some c) a →
      isConnectAction a = false →
      s.get_player_id_by_cookie c = none →
      s.decode_packet addr pkt fresh =
        .ok (.error (.permissionDenied "invalid cookie"), s)) := by
  obtain ⟨h1, h2⟩ := decode_error_char s addr pkt fresh
  refine ⟨⟨?_, ?_⟩, ?_, ?_⟩
  · rintro ⟨e, s2, h⟩
    by_contra hfalse
    have hrc : rejectCond s pkt = false := by
      revert hfalse; cases rejectCond s pkt <;> simp
    exact h2 hrc e s2 h
  · intro htrue
    obtain ⟨e, he⟩ := h1 htrue
    exact ⟨e, s, he⟩
  · intro e s2 h
    cases hrc : rejectCond s pkt with
    | false => exact absurd h (h2 hrc e s2)
    | true =>
      obtain ⟨e', he'⟩ := h1 hrc
      have hh := he'.symm.trans h
      simp only [PanicOr.ok.injEq, Prod.mk.injEq, Except.error.injEq] at hh
      exact hh.2.symm
  · intro seqn rack c a hpkt ha hlook
    subst hpkt
    rw [decode_nonconnect s addr seqn rack (some c) a fresh ha, if_neg (by simp)]
    simp [ServerState.dispatch_request, hlook]

/-- Claim C4, witness: an unknown cookie on a `ListPlayers` request is
rejected `PermissionDenied` with the state unchanged. -/
theorem C4_decode_rejection_witness :
    sOne.decode_packet 3 (.Request 0 none (some "BAD") .ListPlayers) "f" =
      .ok (.error (.permissionDenied "invalid cookie"), sOne) :=
  (C4_decode_rejection sOne 3 (.Request 0 none (some "BAD") .ListPlayers) "f").2.2
    0 none "BAD" .ListPlayers rfl (by decide) (by decide)

/-- A successful cookie lookup returns the value of some map entry. -/
theorem mapLookup_mem (m : List (String × PlayerID)) (k : String) (pid : PlayerID)
    (h : mapLookup m k = some pid) : ∃ e ∈ m, e.2 = pid := by
  have h' : (m.find? (fun e => e.1 == k)).map (·.2) = some pid := h
  obtain ⟨entry, hf, he⟩ := Option.map_eq_some'.mp h'
  exact ⟨entry, List.mem_of_find?_eq_some hf, he⟩

/-- Under the loop invariant, `decode_packet` panics exactly on
`UpdateReply` packets and on authenticated requests whose action has a
panicking dispatch arm. -/
theorem decode_panic_iff (s : ServerState) (addr : Nat) (pkt : Packet)
    (fresh : String) (hInv : LoopInv s) :
    (∃ m, s.decode_packet addr pkt fresh = .panic m) ↔
      panicCond s (.Request addr (some pkt)) = true := by
  cases pkt with
  | Response q ra c => simp [ServerState.decode_packet, panicCond]
  | Update => simp [ServerState.decode_packet, panicCond]
  | UpdateReply => simp [ServerState.decode_packet, panicCond]
  | Request seqn rack ck a =>
    by_cases hca : isConnectAction a = true
    · cases a <;> simp [isConnectAction] at hca
      next n v =>
        rw [decode_connect]
        constructor
        · rintro ⟨m, hm⟩
          revert hm
          split <;> simp
        · intro hcond
          simp [panicCond, isPanickingAction] at hcond
    · have ha : isConnectAction a = false := by
        revert hca; cases isConnectAction a <;> simp
      rw [decode_nonconnect s addr seqn rack ck a fresh ha]
      cases ck with
      | none =>
        simp [panicCond]
      | some c =>
        rw [if_neg (by simp)]
        rcases hlook : s.get_player_id_by_cookie c with _ | pid
        · simp [ServerState.dispatch_request, hlook, panicCond]
        · have hd : s.dispatch_request (some c) a fresh = s.dispatch_inner pid a fresh := by
            simp [ServerState.dispatch_request, hlook]
          rw [hd]
          have hpid : pid < s.players.length := by
            obtain ⟨entry, hmem, he⟩ := mapLookup_mem s.player_map c pid hlook
            rw [← he]
            exact hInv.2.2 entry hmem
          have hcond : panicCond s (.Request addr (some (.Request seqn rack (some c) a)))
              = isPanickingAction a := by
            simp [panicCond, hlook]
          rw [hcond]
          constructor
          · rintro ⟨m, hm⟩
            rcases hpra : s.process_request_action pid a fresh with ⟨code, s1⟩ | m2
            · have hpres := pra_preserves s pid a fresh code s1 hpra
              rcases hpl : s1.players[pid]? with _ | player
              · rw [List.getElem?_eq_getElem
                  (show pid < s1.players.length by rw [hpres.1]; exact hpid)] at hpl
                cases hpl
              · rw [dispatch_inner_eq s pid fresh a ha] at hm
                simp only [hpra, hpl] at hm
                cases hm
            · exact (pra_panic_iff s pid a fresh hpid ha).mp ⟨m2, hpra⟩
          · intro hpan
            obtain ⟨m, hm⟩ := (pra_panic_iff s pid a fresh hpid ha).mpr hpan
            exact ⟨m, by rw [dispatch_inner_eq s pid fresh a ha]; simp only [hm]⟩

/-- Claim C5, amended: a decode or authentication failure aborts only that
datagram — the state is unchanged, no response is sent, and the loop
continues — but handling is not panic-free for every packet variant: an
`UpdateReply` packet panics (the source's `unimplemented!()` arm), as does
an authenticated request whose action is Disconnect, KeepAlive,
LeaveGameSlot, or None; handling panics exactly in those cases. -/
theorem C5_amended_no_panic (s : ServerState) (ev : Event) (fresh : String)
    (hInv : LoopInv s) :
    ((∃ m, handleEvent s ev fresh = .panic m) ↔ panicCond s ev = true) ∧
    (∀ addr pkt e s2, ev = .Request addr (some pkt) →
      s.decode_packet addr pkt fresh = .ok (.error e, s2) →
      s2 = s ∧ handleEvent s ev fresh = .ok ([], s)) := by
  constructor
  · cases ev with
    | TickEvent => simp [handleEvent, panicCond]
    | Request addr opt =>
      cases opt with
      | none => simp [handleEvent, panicCond]
      | some pkt =>
        have hiff := decode_panic_iff s addr pkt fresh hInv
        constructor
        · rintro ⟨m, hm⟩
          apply hiff.mp
          revert hm
          simp only [handleEvent]
          rcases hdec : s.decode_packet addr pkt fresh with ⟨res, s2⟩ | m2
          · rcases res with e | opt2
            · intro hm; cases hm
            · rcases opt2 with _ | resp
              · intro hm; cases hm
              · intro hm; cases hm
          · intro _; exact ⟨m2, rfl⟩
        · intro hcond
          obtain ⟨m, hm⟩ := hiff.mpr hcond
          exact ⟨m, by simp only [handleEvent, hm]⟩
  · intro addr pkt e s2 hev hdec
    subst hev
    obtain ⟨hchar1, hchar2⟩ := decode_error_char s addr pkt fresh
    have hs2 : s2 = s := by
      cases hrc : rejectCond s pkt with
      | false => exact absurd hdec (hchar2 hrc e s2)
      | true =>
        obtain ⟨e', he'⟩ := hchar1 hrc
        have hh := he'.symm.trans hdec
        simp only [PanicOr.ok.injEq, Prod.mk.injEq, Except.error.injEq] at hh
        exact hh.2.symm
    subst hs2
    exact ⟨rfl, by simp only [handleEvent, hdec]⟩

/-- Claim C5, witness for the amended theorem: an authenticated
`Disconnect` request satisfies the panic condition and indeed panics. -/
theorem C5_amended_no_panic_witness :
    (∃ m, handleEvent sOne
        (.Request 3 (some (.Request 0 none (some "CA") .Disconnect))) "f" = .panic m) ↔
      panicCond sOne
        (.Request 3 (some (.Request 0 none (some "CA") .Disconnect))) = true :=
  (C5_amended_no_panic sOne
    (.Request 3 (some (.Request 0 none (some "CA") .Disconnect))) "f" (by decide)).1

/-- Claim C3: a Connect whose name is already taken by a live player is
answered `Unauthorized` with no state change; otherwise a fresh player is
allocated — its id is the never-before-used `next_player_id` (under the
loop invariant no live player carries it), its cookie is the fresh random
draw (assumed distinct from every cookie issued so far), its response
sequence starts at 0 (the `LoggedIn` response carries sequence 0 and the
stored record advances to 1) — the cookie is indexed in the
cookie-to-player map, and the response is `LoggedIn(cookie)`. -/
theorem C3_connect_behavior (s : ServerState) (addr : Nat)
    (nm v fresh : String) (seqn : Nat) (rack : Option Nat) (ck : Option String)
    (hInv : LoopInv s)
    (hfresh : (∀ p ∈ s.players, p.cookie ≠ fresh) ∧
              (∀ e ∈ s.player_map, e.1 ≠ fresh)) :
    (s.is_unique_name nm = false →
      s.decode_packet addr (.Request seqn rack ck (.Connect nm v)) fresh =
        .ok (.ok (some (.Response 0 none (.Unauthorized (some "not a unique name")))), s)) ∧
    (s.is_unique_name nm = true →
      s.decode_packet addr (.Request seqn rack ck (.Connect nm v)) fresh =
        .ok (.ok (some (.Response 0 none (.LoggedIn fresh))),
             { s with
               next_player_id := s.next_player_id + 1
               player_map := (fresh, s.next_player_id) :: s.player_map
               players := s.players ++
                 [{ player_id := s.next_player_id
                    cookie := fresh
                    addr := addr
                    player_name := nm
                    request_ack := none
                    next_resp_seq := 1
                    game_info := none }] }) ∧
      (∀ p ∈ s.players, p.player_id ≠ s.next_player_id) ∧
      s.get_player_id_by_cookie fresh = none ∧
      mapLookup ((fresh, s.next_player_id) :: s.player_map) fresh =
        some s.next_player_id) := by
  constructor
  · intro h
    rw [decode_connect, if_neg (by simp [h])]
  · intro h
    refine ⟨by rw [decode_connect, if_pos h], ?_, ?_, ?_⟩
    · intro p hp
      obtain ⟨i, hget⟩ := List.mem_iff_get.mp hp
      have hid : p.player_id = i.1 := by
        rw [← hget]
        exact hInv.1 i.1 i.2
      rw [hid, hInv.2.1]
      exact Nat.ne_of_lt i.2
    · have hnone : s.player_map.find? (fun e => e.1 == fresh) = none := by
        rw [List.find?_eq_none]
        intro e he
        simp only [beq_iff_eq]
        exact hfresh.2 e he
      show mapLookup s.player_map fresh = none
      unfold mapLookup
      rw [hnone]
      rfl
    · show ((((fresh, s.next_player_id) :: s.player_map).find?
        (fun e => e.1 == fresh)).map (·.2)) = some s.next_player_id
      rw [List.find?_cons_of_pos _ (by simp)]
      rfl

/-- Claim C3, witness: on a one-player server a duplicate-name Connect is
refused; a fresh name is allocated id 1 and logged in under cookie "NEW". -/
theorem C3_connect_behavior_witness :
    (sOne.decode_packet 9 (.Request 5 none none (.Connect "p0" "v")) "NEW" =
      .ok (.ok (some (.Response 0 none (.Unauthorized (some "not a unique name")))), sOne)) ∧
    (sOne.decode_packet 9 (.Request 5 none none (.Connect "bob" "v")) "NEW" =
      .ok (.ok (some (.Response 0 none (.LoggedIn "NEW"))),
           { sOne with
             next_player_id := 2
             player_map := [("NEW", 1), ("CA", 0)]
             players := sOne.players ++
               [{ player_id := 1
                  cookie := "NEW"
                  addr := 9
                  player_name := "bob"
                  request_ack := none
                  next_resp_seq := 1
                  game_info := none }] })) :=
  ⟨(C3_connect_behavior sOne 9 "p0" "v" "NEW" 5 none none (by decide)
      ⟨by decide, by decide⟩).1 (by decide),
   ((C3_connect_behavior sOne 9 "bob" "v" "NEW" 5 none none (by decide)
      ⟨by decide, by decide⟩).2 (by decide)).1⟩

/-- Under the loop invariant a player found at an index carries that index
as its id. -/
theorem loopInv_pid {s : ServerState} (hInv : LoopInv s) {i : Nat} {p : Player}
    (h : s.players[i]? = some p) : p.player_id = i := by
  obtain ⟨hlt, hget⟩ := List.getElem?_eq_some.mp h
  rw [← hget]
  exact hInv.1 i hlt

/-- Build the loop invariant from its `getElem?` formulation. -/
theorem loopInv_of_getElem? (s' : ServerState)
    (hids : ∀ i : Nat, ∀ p, s'.players[i]? = some p → p.player_id = i)
    (hnext : s'.next_player_id = s'.players.length)
    (hmap : ∀ e ∈ s'.player_map, e.2 < s'.players.length) : LoopInv s' :=
  ⟨fun i h => hids i _ (List.getElem?_eq_getElem h), hnext, hmap⟩

/-- Value of `stepTarget` on a Connect request. -/
theorem stepTarget_connect (s : ServerState) (seqn : Nat) (rack : Option Nat)
    (ck : Option String) (n v : String) :
    stepTarget s (.Request seqn rack ck (.Connect n v)) =
      (if s.is_unique_name n then some s.players.length else none) :=
  rfl

/-- Value of `stepTarget` on a non-Connect request: the cookie lookup. -/
theorem stepTarget_nonconnect (s : ServerState) (seqn : Nat) (rack : Option Nat)
    (ck : Option String) (a : RequestAction) (ha : isConnectAction a = false) :
    stepTarget s (.Request seqn rack ck a) =
      (match ck with
       | some c => s.get_player_id_by_cookie c
       | none => none) := by
  cases a <;> first | rfl | simp [isConnectAction] at ha

/-- One successful `decode_packet` step: the loop invariant is preserved;
an error leaves the state unchanged; a non-error always carries a
`Response` packet; and the response's sequence number is exactly the
target player's pre-step `startSeq`, which the step advances by one while
every other player's `startSeq` is untouched (an untargeted response — the
duplicate-name `Unauthorized` — changes nothing). -/
theorem decode_step (s : ServerState) (addr : Nat) (pkt : Packet) (fresh : String)
    (res : Except DecodeError (Option Packet)) (s' : ServerState)
    (hInv : LoopInv s)
    (h : s.decode_packet addr pkt fresh = .ok (res, s')) :
    LoopInv s' ∧
    (∀ e, res = .error e → s' = s) ∧
    res ≠ .ok none ∧
    (∀ p, res = .ok (some p) → ∃ q ra code, p = .Response q ra code) ∧
    (∀ q ra code, res = .ok (some (.Response q ra code)) →
      match stepTarget s pkt with
      | some t => q = startSeq s t ∧ startSeq s' t = q + 1 ∧
                  (∀ j : Nat, j ≠ t → startSeq s' j = startSeq s j)
      | none => s' = s) := by
  cases pkt with
  | Response q2 ra2 c2 =>
    simp only [ServerState.decode_packet, PanicOr.ok.injEq, Prod.mk.injEq] at h
    obtain ⟨h1, h2⟩ := h
    subst h2
    rw [← h1]
    exact ⟨hInv, fun e _ => rfl, by simp, fun p hp => absurd hp (by simp),
      fun q ra code hp => absurd hp (by simp)⟩
  | Update =>
    simp only [ServerState.decode_packet, PanicOr.ok.injEq, Prod.mk.injEq] at h
    obtain ⟨h1, h2⟩ := h
    subst h2
    rw [← h1]
    exact ⟨hInv, fun e _ => rfl, by simp, fun p hp => absurd hp (by simp),
      fun q ra code hp => absurd hp (by simp)⟩
  | UpdateReply => simp [ServerState.decode_packet] at h
  | Request seqn rack ck a =>
    by_cases hca : isConnectAction a = true
    · cases a <;> simp [isConnectAction] at hca
      next n v =>
        rw [decode_connect] at h
        by_cases hu : s.is_unique_name n = true
        · rw [if_pos hu] at h
          simp only [PanicOr.ok.injEq, Prod.mk.injEq] at h
          obtain ⟨h1, h2⟩ := h
          subst h2
          rw [← h1]
          have hlen := hInv.2.1
          refine ⟨?_, by simp, by simp, ?_, ?_⟩
          · refine loopInv_of_getElem? _ ?_ ?_ ?_
            · intro i p hp
              simp only [List.getElem?_append] at hp
              split at hp
              · exact loopInv_pid hInv hp
              next hge =>
                rcases hd : i - s.players.length with _ | d
                · rw [hd] at hp
                  simp only [List.getElem?_cons_zero, Option.some.injEq] at hp
                  rw [← hp]
                  show s.next_player_id = i
                  rw [hlen]
                  exact Nat.le_antisymm (Nat.not_lt.mp hge) (Nat.le_of_sub_eq_zero hd)
                · rw [hd] at hp
                  simp at hp
            · show s.next_player_id + 1 = _
              simp only [List.length_append, List.length_cons, List.length_nil]
              rw [hlen]
            · intro e he
              show e.2 < _
              simp only [List.length_append, List.length_cons, List.length_nil]
              rcases List.mem_cons.mp he with he1 | he2
              · rw [he1]
                show s.next_player_id < s.players.length + (0 + 1)
                rw [hlen]
                exact Nat.lt_succ_self _
              · exact Nat.lt_succ_of_lt (hInv.2.2 e he2)
          · intro p hp
            simp only [Except.ok.injEq, Option.some.injEq] at hp
            exact ⟨0, none, .LoggedIn fresh, hp.symm⟩
          · intro q ra code hp
            simp only [Except.ok.injEq, Option.some.injEq, Packet.Response.injEq] at hp
            obtain ⟨hq, hra, hcode⟩ := hp
            rw [stepTarget_connect, if_pos hu]
            have hnone : s.players[s.players.length]? = none :=
              List.getElem?_eq_none (Nat.le_refl _)
            refine ⟨?_, ?_, ?_⟩
            · rw [← hq]
              unfold startSeq
              rw [hnone]
              rfl
            · unfold startSeq
              show (((s.players ++ [_])[s.players.length]?).map Player.next_resp_seq).getD 0
                = q + 1
              rw [List.getElem?_concat_length, ← hq]
              rfl
            · intro j hj
              unfold startSeq
              show (((s.players ++ [_])[j]?).map Player.next_resp_seq).getD 0 = _
              rw [List.getElem?_append]
              split
              · rfl
              next hge =>
                have hjlen : s.players.length ≤ j := Nat.not_lt.mp hge
                have hj2 : s.players[j]? = none := List.getElem?_eq_none hjlen
                rcases hd : j - s.players.length with _ | d
                · exact absurd (Nat.le_antisymm hjlen (Nat.le_of_sub_eq_zero hd)).symm hj
                · rw [hj2]
                  simp
        · rw [if_neg hu] at h
          simp only [PanicOr.ok.injEq, Prod.mk.injEq] at h
          obtain ⟨h1, h2⟩ := h
          subst h2
          rw [← h1]
          refine ⟨hInv, by simp, by simp, ?_, ?_⟩
          · intro p hp
            simp only [Except.ok.injEq, Option.some.injEq] at hp
            exact ⟨0, none, .Unauthorized (some "not a unique name"), hp.symm⟩
          · intro q ra code hp
            rw [stepTarget_connect, if_neg hu]
    · have ha : isConnectAction a = false := by
        revert hca; cases isConnectAction a <;> simp
      rw [decode_nonconnect s addr seqn rack ck a fresh ha] at h
      rw [stepTarget_nonconnect s seqn rack ck a ha]
      cases ck with
      | none =>
        rw [if_pos (by simp)] at h
        simp only [PanicOr.ok.injEq, Prod.mk.injEq] at h
        obtain ⟨h1, h2⟩ := h
        subst h2
        rw [← h1]
        exact ⟨hInv, fun e _ => rfl, by simp, fun p hp => absurd hp (by simp),
          fun q ra code hp => absurd hp (by simp)⟩
      | some c =>
        rw [if_neg (by simp)] at h
        rcases hlook : s.get_player_id_by_cookie c with _ | pid
        · rw [show s.dispatch_request (some c) a fresh =
              .ok (.error (.permissionDenied "invalid cookie"), s) from
              by simp [ServerState.dispatch_request, hlook]] at h
          simp only [PanicOr.ok.injEq, Prod.mk.injEq] at h
          obtain ⟨h1, h2⟩ := h
          subst h2
          rw [← h1]
          exact ⟨hInv, fun e _ => rfl, by simp, fun p hp => absurd hp (by simp),
            fun q ra code hp => absurd hp (by simp)⟩
        · rw [show s.dispatch_request (some c) a fresh =
              s.dispatch_inner pid a fresh from
              by simp [ServerState.dispatch_request, hlook]] at h
          have hpid : pid < s.players.length := by
            obtain ⟨entry, hmem, he⟩ := mapLookup_mem s.player_map c pid hlook
            rw [← he]
            exact hInv.2.2 entry hmem
          rcases dispatch_inner_shape s pid a fresh ha
            with ⟨m, hm⟩ | ⟨code, s1, player, hpra, hpl, hok⟩
          · rw [hm] at h
            cases h
          · rw [hok] at h
            simp only [PanicOr.ok.injEq, Prod.mk.injEq] at h
            obtain ⟨h1, h2⟩ := h
            obtain ⟨hlen1, hids1, hseqs1, hmap1, hnext1⟩ :=
              pra_preserves s pid a fresh code s1 hpra
            have hpid1 : pid < s1.players.length := by rw [hlen1]; exact hpid
            have hply : s'.players =
                s1.players.set pid { player with next_resp_seq := player.next_resp_seq + 1 } := by
              rw [← h2]
            have hmap' : s'.player_map = s1.player_map := by rw [← h2]
            have hnext' : s'.next_player_id = s1.next_player_id := by rw [← h2]
            have horig : ∃ orig, s.players[pid]? = some orig :=
              ⟨_, List.getElem?_eq_getElem hpid⟩
            obtain ⟨orig, horig⟩ := horig
            have hseq_pid : player.next_resp_seq = orig.next_resp_seq := by
              have hseqs := hseqs1 pid
              rw [hpl, horig] at hseqs
              simpa using hseqs
            rw [← h1]
            refine ⟨?_, by simp, by simp, ?_, ?_⟩
            · refine loopInv_of_getElem? _ ?_ ?_ ?_
              · intro i p hp
                rw [hply] at hp
                by_cases hip : pid = i
                · subst hip
                  rw [List.getElem?_set_eq_of_lt _ hpid1] at hp
                  simp only [Option.some.injEq] at hp
                  rw [← hp]
                  show player.player_id = pid
                  have hid1 := hids1 pid
                  rw [hpl, horig] at hid1
                  simp only [Option.map_some', Option.some.injEq] at hid1
                  rw [hid1]
                  exact loopInv_pid hInv horig
                · rw [List.getElem?_set_ne hip] at hp
                  have hid1 := hids1 i
                  rw [hp] at hid1
                  obtain ⟨p0, hp0, hpe⟩ := Option.map_eq_some'.mp hid1.symm
                  rw [← hpe]
                  exact loopInv_pid hInv hp0
              · rw [hnext', hnext1, hInv.2.1, hply, List.length_set, hlen1]
              · intro e he
                rw [hmap', hmap1] at he
                rw [hply, List.length_set, hlen1]
                exact hInv.2.2 e he
            · intro p hp
              simp only [Except.ok.injEq, Option.some.injEq] at hp
              exact ⟨player.next_resp_seq, none, code, hp.symm⟩
            · intro q ra code' hp
              simp only [Except.ok.injEq, Option.some.injEq, Packet.Response.injEq] at hp
              obtain ⟨hq, hra, hcode⟩ := hp
              simp only [hlook]
              refine ⟨?_, ?_, ?_⟩
              · rw [← hq]
                unfold startSeq
                rw [horig]
                simpa using hseq_pid
              · unfold startSeq
                rw [hply, List.getElem?_set_eq_of_lt _ hpid1, ← hq]
                rfl
              · intro j hj
                unfold startSeq
                rw [hply, List.getElem?_set_ne (fun hh => hj hh.symm), hseqs1 j]

/-- Along any panic-free run from an invariant state, the response sequence
numbers issued to each player index form the contiguous block starting at
that player's `startSeq`, ending exactly at the final state's `startSeq`. -/
theorem runLog_range (trace : List StepIn) :
    ∀ s sf log, LoopInv s → runLog s trace = some (sf, log) →
    ∀ i : Nat, ∃ k,
      (log.filter (fun e => e.1 == i)).map (·.2) = List.range' (startSeq s i) k ∧
      startSeq sf i = startSeq s i + k := by
  induction trace with
  | nil =>
    intro s sf log hInv h i
    simp only [runLog, Option.some.injEq, Prod.mk.injEq] at h
    obtain ⟨h1, h2⟩ := h
    subst h1
    subst h2
    exact ⟨0, rfl, rfl⟩
  | cons inp rest ih =>
    intro s sf log hInv h i
    simp only [runLog] at h
    rcases hdec : s.decode_packet inp.addr inp.pkt inp.fresh with ⟨res, s'⟩ | m
    · simp only [hdec] at h
      rcases hrl : runLog s' rest with _ | ⟨sf', log'⟩
      · rw [hrl] at h
        cases h
      · rw [hrl] at h
        simp only [Option.map_some', Option.some.injEq, Prod.mk.injEq] at h
        obtain ⟨hsf, hlog⟩ := h
        subst hsf
        subst hlog
        obtain ⟨hInv', herr, hnotnone, hshape, htarget⟩ :=
          decode_step s inp.addr inp.pkt inp.fresh res s' hInv hdec
        rcases res with e | opt
        · have hs' : s' = s := herr e rfl
          subst hs'
          exact ih _ _ _ hInv' hrl i
        · rcases opt with _ | p
          · exact absurd rfl hnotnone
          · obtain ⟨q, ra, code, hp⟩ := hshape p rfl
            subst hp
            have ht := htarget q ra code rfl
            rcases hst : stepTarget s inp.pkt with _ | t
            · rw [hst] at ht
              subst ht
              exact ih _ _ _ hInv' hrl i
            · rw [hst] at ht
              obtain ⟨hq, hs't, hother⟩ := ht
              obtain ⟨k, hk1, hk2⟩ := ih _ _ _ hInv' hrl i
              have hstep : startSeq s' t = startSeq s t + 1 := by rw [hs't, hq]
              by_cases hti : t = i
              · subst hti
                refine ⟨k + 1, ?_, ?_⟩
                · show (((t, q) :: log').filter (fun e => e.1 == t)).map (·.2) = _
                  simp only [List.filter_cons]
                  rw [if_pos (by simp)]
                  simp only [List.map_cons]
                  rw [hk1, hstep, List.range'_succ, hq]
                · rw [hk2, hstep]
                  omega
              · refine ⟨k, ?_, ?_⟩
                · show (((t, q) :: log').filter (fun e => e.1 == i)).map (·.2) = _
                  simp only [List.filter_cons]
                  rw [if_neg (by simp [hti])]
                  rw [hk1, hother i (fun hh => hti hh.symm)]
                · rw [hk2, hother i (fun hh => hti hh.symm)]
    · simp only [hdec] at h
      cases h

/-- Claim C2: starting from the initial server state, along any panic-free
sequence of handled datagrams the response sequence numbers issued to any
given player index are exactly `0, 1, 2, …` in order — no gaps, no
repeats — and the player's stored next-response-sequence equals the count
of responses issued so far. -/
theorem C2_response_sequences (trace : List StepIn) (sf : ServerState)
    (log : List (Nat × Nat))
    (h : runLog ServerState.new trace = some (sf, log)) (i : Nat) :
    ∃ k, (log.filter (fun e => e.1 == i)).map (·.2) = List.range k ∧
         startSeq sf i = k := by
  have hInv0 : LoopInv ServerState.new :=
    ⟨fun j hj => absurd hj (by simp [ServerState.new]),
     rfl,
     fun e he => absurd he (by simp [ServerState.new])⟩
  obtain ⟨k, h1, h2⟩ := runLog_range trace ServerState.new sf log hInv0 h i
  refine ⟨k, ?_, ?_⟩
  · rw [h1, show startSeq ServerState.new i = 0 from rfl, ← List.range_eq_range']
  · rw [h2, show startSeq ServerState.new i = 0 from rfl]
    omega

/-- Claim C2, witness: a Connect followed by an authenticated ListPlayers
issues sequences 0 then 1 to player 0, matching the stored counter 2. -/
theorem C2_response_sequences_witness :
    ∃ k, (wLog.filter (fun e => e.1 == 0)).map (·.2) = List.range k ∧
         startSeq wState 0 = k :=
  C2_response_sequences wTrace wState wLog (by decide) 0

/-- Claim C10: `SendPackets` is all-or-nothing over the transmit queue —
mismatched lengths fail `SendPacketsLengthMismatch`, an oversized packet
fails the whole call with `ExceedsMtu{tid}`, exhausted capacity fails
`BufferFull`, each leaving the queue exactly as it was; only `Accepted`
enqueues, and then it enqueues every packet of the call. -/
theorem C10_send_packets_atomic (q : TransmitQueue) (settings : List PacketSettings)
    (packets : List WirePacket) :
    (settings.length ≠ packets.length →
      sendPackets q settings packets = (.SendPacketsLengthMismatch, q)) ∧
    (∀ tid, settings.length = packets.length →
      firstMtuViolation settings packets = some tid →
      sendPackets q settings packets = (.ExceedsMtu tid, q)) ∧
    (settings.length = packets.length →
      firstMtuViolation settings packets = none →
      q.entries.length + packets.length > q.capacity →
      sendPackets q settings packets = (.BufferFull, q)) ∧
    (settings.length = packets.length →
      firstMtuViolation settings packets = none →
      q.entries.length + packets.length ≤ q.capacity →
      sendPackets q settings packets =
        (.Accepted, { q with entries := q.entries ++ (settings.map (·.tid)).zip packets })) ∧
    (∀ rsp q', sendPackets q settings packets = (rsp, q') → rsp ≠ .Accepted → q' = q) := by
  refine ⟨?_, ?_, ?_, ?_, ?_⟩
  · intro h
    simp [sendPackets, h]
  · intro tid hlen hmtu
    simp only [sendPackets, hmtu]
    rw [if_neg (fun hne => hne hlen)]
  · intro hlen hmtu hcap
    simp only [sendPackets, hmtu]
    rw [if_neg (fun hne => hne hlen), if_pos hcap]
  · intro hlen hmtu hcap
    simp only [sendPackets, hmtu]
    rw [if_neg (fun hne => hne hlen), if_neg (by omega)]
  · intro rsp q' h hne
    by_cases h1 : settings.length ≠ packets.length
    · rw [sendPackets, if_pos h1] at h
      simp only [Prod.mk.injEq] at h
      exact h.2.symm
    · rcases hm : firstMtuViolation settings packets with _ | tid
      · simp only [sendPackets, if_neg h1, hm] at h
        by_cases hc : q.entries.length + packets.length > q.capacity
        · rw [if_pos hc] at h
          simp only [Prod.mk.injEq] at h
          exact h.2.symm
        · rw [if_neg hc] at h
          simp only [Prod.mk.injEq] at h
          exact absurd h.1.symm hne
      · simp only [sendPackets, if_neg h1, hm] at h
        simp only [Prod.mk.injEq] at h
        exact h.2.symm

/-- Claim C10, witness: on a small queue, mismatched lengths and an
oversized packet each fail leaving the queue untouched; exhausted capacity
fails `BufferFull`; a fitting packet is accepted and enqueued. -/
theorem C10_send_packets_atomic_witness :
    sendPackets qW [{ tid := 1, retry_interval := 40 }] [] =
      (.SendPacketsLengthMismatch, qW) ∧
    sendPackets qW [{ tid := 1, retry_interval := 40 }] [{ encoded_size := 2000 }] =
      (.ExceedsMtu 1, qW) ∧
    sendPackets { entries := [], capacity := 0 }
        [{ tid := 1, retry_interval := 40 }] [{ encoded_size := 100 }] =
      (.BufferFull, { entries := [], capacity := 0 }) ∧
    sendPackets qW [{ tid := 1, retry_interval := 40 }] [{ encoded_size := 100 }] =
      (.Accepted, { qW with entries := [(1, { encoded_size := 100 })] }) :=
  ⟨(C10_send_packets_atomic qW _ _).1 (by decide),
   (C10_send_packets_atomic qW _ _).2.1 1 (by decide) (by decide),
   (C10_send_packets_atomic { entries := [], capacity := 0 } _ _).2.2.1
     (by decide) (by decide) (by decide),
   (C10_send_packets_atomic qW _ _).2.2.2.1 (by decide) (by decide) (by decide)⟩
